import Mathlib

/-!
Verification of the buffer state machine and request dispatcher of the
ureq HTTP client (src/src/transport/mod.rs and src/src/request.rs).

Panicking Rust operations are embedded as Lean functions returning
`Option` (`none` = panic / fatal invariant violation). Byte buffers
(`Vec<u8>`) are embedded as `List Nat`; only lengths and slicing matter
to the verified properties.
-/

namespace UreqSpec

/-- Embeds `LazyBuffers` from src/src/transport/mod.rs (lines 53-67):
input/output storage sizes, lazily-allocated storage, the optional
filled amount (`Some` = "fill mode", `None` = free), and the consumed
offset. -/
structure LazyBuffers where
  input_size : Nat
  output_size : Nat
  input : List Nat
  output : List Nat
  input_filled : Option Nat
  input_consumed : Nat
  deriving DecidableEq, Repr

/-- Embeds `Buffers` (transport/mod.rs lines 39-42): the borrowed
input/output slices. -/
structure Buffers where
  input : List Nat
  output : List Nat
  deriving DecidableEq, Repr

/-- Embeds `LazyBuffers::new` (transport/mod.rs lines 70-84). The two
`assert!` calls are the `none` branches; on success the vectors stay
unallocated and the buffer starts free. -/
def LazyBuffers.new (input_size output_size : Nat) : Option LazyBuffers :=
  if 0 < input_size then
    if 0 < output_size then
      some { input_size := input_size, output_size := output_size,
             input := [], output := [],
             input_filled := none, input_consumed := 0 }
    else none
  else none

/-- Embeds `LazyBuffers::unconsumed` (transport/mod.rs lines 113-123).
`filled.checked_sub(consumed).expect(..)` is the `none` branch when
`consumed > filled`. -/
def LazyBuffers.unconsumed (lb : LazyBuffers) : Option Nat :=
  match lb.input_filled with
  | some filled =>
      if lb.input_consumed ≤ filled then some (filled - lb.input_consumed)
      else none
  | none => some 0

/-- Embeds `LazyBuffers::assert_and_clear_input_filled` (transport/mod.rs
lines 137-150): fatal when any bytes are unconsumed, otherwise resets to
free mode with consumed offset 0. -/
def LazyBuffers.assert_and_clear_input_filled (lb : LazyBuffers) : Option LazyBuffers :=
  match lb.unconsumed with
  | none => none
  | some u =>
      if 0 < u then none
      else some { lb with input_filled := none, input_consumed := 0 }

/-- Embeds `LazyBuffers::set_input_filled` (transport/mod.rs lines
128-133): first asserts-and-clears, then records the filled amount. -/
def LazyBuffers.set_input_filled (lb : LazyBuffers) (input_filled : Nat) : Option LazyBuffers :=
  match lb.assert_and_clear_input_filled with
  | none => none
  | some lb2 => some { lb2 with input_filled := some input_filled }

/-- Embeds `LazyBuffers::consume_input` (transport/mod.rs lines 155-174):
fatal unless in fill mode; fatal if `amount` exceeds the unconsumed
amount (or `unconsumed` itself panics); otherwise bumps the consumed
offset. -/
def LazyBuffers.consume_input (lb : LazyBuffers) (amount : Nat) : Option LazyBuffers :=
  if lb.input_filled.isSome then
    match lb.unconsumed with
    | none => none
    | some u =>
        if u < amount then none
        else some { lb with input_consumed := lb.input_consumed + amount }
  else none

/-- Embeds `LazyBuffers::borrow_mut` (transport/mod.rs lines 91-110):
resizes empty storage to the configured capacity, then returns the
input scaled to `[consumed, filled)` in fill mode (a Rust slice
`input[consumed..filled]`, which panics unless
`consumed ≤ filled ≤ input.len()`), or the whole input when free. -/
def LazyBuffers.borrow_mut (lb : LazyBuffers) : Option (Buffers × LazyBuffers) :=
  let inp := if lb.input.isEmpty then List.replicate lb.input_size 0 else lb.input
  let out := if lb.output.isEmpty then List.replicate lb.output_size 0 else lb.output
  let lb2 := { lb with input := inp, output := out }
  match lb.input_filled with
  | some filled =>
      if lb.input_consumed ≤ filled ∧ filled ≤ inp.length then
        some ({ input := (inp.take filled).drop lb.input_consumed, output := out }, lb2)
      else none
  | none => some ({ input := inp, output := out }, lb2)

/-- Runs a sequence of `consume_input` calls, propagating the first
fatal violation. -/
def consumeSeq : LazyBuffers → List Nat → Option LazyBuffers
  | lb, [] => some lb
  | lb, k :: ks => (lb.consume_input k).bind fun lb2 => consumeSeq lb2 ks

/-- One non-panicking buffer operation, as used in the reachability
relation: a successful fill, consume, clear or borrow. -/
inductive Step : LazyBuffers → LazyBuffers → Prop where
  | fill : ∀ lb lb2 n, lb.set_input_filled n = some lb2 → Step lb lb2
  | consume : ∀ lb lb2 k, lb.consume_input k = some lb2 → Step lb lb2
  | clear : ∀ lb lb2, lb.assert_and_clear_input_filled = some lb2 → Step lb lb2
  | borrow : ∀ lb lb2 b, lb.borrow_mut = some (b, lb2) → Step lb lb2

/-- States reachable from a freshly constructed buffer by any sequence
of non-panicking operations. -/
inductive Reachable : LazyBuffers → Prop where
  | init : ∀ i o lb, LazyBuffers.new i o = some lb → Reachable lb
  | step : ∀ lb lb2, Reachable lb → Step lb lb2 → Reachable lb2

/-! Basic lemmas about the embedded operations. -/

theorem unconsumed_of_free {lb : LazyBuffers} (h : lb.input_filled = none) :
    lb.unconsumed = some 0 := by
  simp [LazyBuffers.unconsumed, h]

theorem unconsumed_of_filled {lb : LazyBuffers} {f : Nat}
    (h : lb.input_filled = some f) (hc : lb.input_consumed ≤ f) :
    lb.unconsumed = some (f - lb.input_consumed) := by
  simp [LazyBuffers.unconsumed, h, hc]

theorem clear_of_free {lb : LazyBuffers} (h : lb.input_filled = none) :
    lb.assert_and_clear_input_filled
      = some { lb with input_filled := none, input_consumed := 0 } := by
  simp [LazyBuffers.assert_and_clear_input_filled, unconsumed_of_free h]

theorem set_input_filled_of_free {lb : LazyBuffers} {n : Nat} (h : lb.input_filled = none) :
    lb.set_input_filled n
      = some { lb with input_filled := some n, input_consumed := 0 } := by
  simp [LazyBuffers.set_input_filled, clear_of_free h]

theorem consume_input_ok {lb : LazyBuffers} {f k : Nat}
    (h : lb.input_filled = some f) (hc : lb.input_consumed ≤ f)
    (hk : k ≤ f - lb.input_consumed) :
    lb.consume_input k
      = some { lb with input_consumed := lb.input_consumed + k } := by
  simp only [LazyBuffers.consume_input, h, Option.isSome_some, if_true,
    unconsumed_of_filled h hc]
  rw [if_neg (by omega)]

theorem consumeSeq_ok : ∀ (ks : List Nat) (lb : LazyBuffers) (f : Nat),
    lb.input_filled = some f → lb.input_consumed + ks.sum ≤ f →
    consumeSeq lb ks = some { lb with input_consumed := lb.input_consumed + ks.sum } := by
  intro ks
  induction ks with
  | nil => intro lb f h hle; simp [consumeSeq]
  | cons k ks ih =>
      intro lb f h hle
      simp only [List.sum_cons] at hle
      have hc : lb.input_consumed ≤ f := by omega
      have hk : k ≤ f - lb.input_consumed := by omega
      have hstep := consume_input_ok h hc hk
      simp only [consumeSeq, hstep, Option.some_bind]
      rw [ih { lb with input_consumed := lb.input_consumed + k } f h (by simp; omega)]
      have hsum2 : lb.input_consumed + k + ks.sum = lb.input_consumed + (k :: ks).sum := by
        rw [List.sum_cons]; omega
      simp only [hsum2]

/-! Inversion lemmas: what a successful operation says about its input
and output states. -/

theorem new_inv {i o : Nat} {lb : LazyBuffers} (h : LazyBuffers.new i o = some lb) :
    lb = { input_size := i, output_size := o, input := [], output := [],
           input_filled := none, input_consumed := 0 } := by
  simp only [LazyBuffers.new] at h
  split at h
  · split at h
    · exact (Option.some_inj.mp h).symm
    · simp at h
  · simp at h

theorem clear_inv {lb lb2 : LazyBuffers}
    (h : lb.assert_and_clear_input_filled = some lb2) :
    lb2 = { lb with input_filled := none, input_consumed := 0 } := by
  simp only [LazyBuffers.assert_and_clear_input_filled] at h
  split at h
  · simp at h
  · split at h
    · simp at h
    · exact (Option.some_inj.mp h).symm

theorem set_input_filled_inv {lb lb2 : LazyBuffers} {n : Nat}
    (h : lb.set_input_filled n = some lb2) :
    lb2 = { lb with input_filled := some n, input_consumed := 0 } := by
  simp only [LazyBuffers.set_input_filled] at h
  cases hc : lb.assert_and_clear_input_filled with
  | none => rw [hc] at h; simp at h
  | some lbm =>
      rw [hc] at h
      rw [clear_inv hc] at h
      exact (Option.some_inj.mp h).symm

theorem consume_input_inv {lb lb2 : LazyBuffers} {k : Nat}
    (h : lb.consume_input k = some lb2) :
    ∃ f, lb.input_filled = some f ∧ lb.input_consumed ≤ f
      ∧ k ≤ f - lb.input_consumed
      ∧ lb2 = { lb with input_consumed := lb.input_consumed + k } := by
  have hs : lb.input_filled.isSome := by
    by_contra hns
    simp only [LazyBuffers.consume_input] at h
    rw [if_neg hns] at h
    simp at h
  obtain ⟨f, hf⟩ := Option.isSome_iff_exists.mp hs
  by_cases hc : lb.input_consumed ≤ f
  · have hu := unconsumed_of_filled hf hc
    simp only [LazyBuffers.consume_input, hs, if_true, hu] at h
    by_cases hk : f - lb.input_consumed < k
    · rw [if_pos hk] at h; simp at h
    · rw [if_neg hk] at h
      exact ⟨f, hf, hc, by omega, (Option.some_inj.mp h).symm⟩
  · have hu : lb.unconsumed = none := by
      simp [LazyBuffers.unconsumed, hf, hc]
    simp only [LazyBuffers.consume_input, hs, if_true, hu] at h
    simp at h

theorem borrow_mut_inv {lb lb2 : LazyBuffers} {b : Buffers}
    (h : lb.borrow_mut = some (b, lb2)) :
    lb2.input_filled = lb.input_filled ∧ lb2.input_consumed = lb.input_consumed := by
  cases hf : lb.input_filled with
  | none =>
      simp only [LazyBuffers.borrow_mut, hf] at h
      rw [Option.some_inj, Prod.mk.injEq] at h
      rw [← h.2]
      exact ⟨rfl, rfl⟩
  | some filled =>
      simp only [LazyBuffers.borrow_mut, hf] at h
      by_cases hcond : lb.input_consumed ≤ filled ∧
          filled ≤ (if lb.input.isEmpty = true then List.replicate lb.input_size 0
            else lb.input).length
      · rw [if_pos hcond] at h
        rw [Option.some_inj, Prod.mk.injEq] at h
        rw [← h.2]
        exact ⟨rfl, rfl⟩
      · rw [if_neg hcond] at h
        simp at h

/-! Embedding of the request dispatcher (src/src/request.rs). URL
parsing and the response machinery are external collaborators; the
`url` crate's `Url::join` is taken as a function parameter, a `Url` is
opaque (a string), and `pool.connect` is a function parameter producing
either a response value or an error. -/

/-- Resolved URLs are opaque to this core; the `url` crate owns them. -/
abbrev Url := String

/-- Embeds the error kinds of request.rs that the verified claims
touch: `Error::BadUrl` plus a representative of the remaining kinds. -/
inductive Err where
  | BadUrl (msg : String)
  | Other (msg : String)
  deriving DecidableEq, Repr

/-- Embeds the agent fields `Request::new` reads (request.rs lines
106-115): the shared-state handle (opaque token) and default headers. -/
structure Agent where
  state : Nat
  headers : List String
  deriving DecidableEq, Repr

/-- Embeds the `Request` builder struct (request.rs lines 24-39).
Headers and query are opaque to the verified claims; the shared-state
`Arc` is an opaque token. -/
structure Request where
  state : Nat
  method : String
  path : String
  headers : List String
  query : String
  timeout : Nat
  timeout_read : Nat
  timeout_write : Nat
  redirects : Nat
  deriving DecidableEq, Repr

/-- Embeds `#[derive(Default)]` for `Request` (request.rs line 24). -/
def Request.mkDefault : Request :=
  { state := 0, method := "", path := "", headers := [], query := "",
    timeout := 0, timeout_read := 0, timeout_write := 0, redirects := 0 }

/-- Embeds `Request::new` (request.rs lines 106-115): clones the agent
state and headers, sets method/path, sets `redirects` to 5 and leaves
the remaining fields at their `Default` values. -/
def Request.new (agent : Agent) (method path : String) : Request :=
  { Request.mkDefault with
    state := agent.state, method := method, path := path,
    headers := agent.headers, redirects := 5 }

/-- Embeds the builder method `Request::redirects` (request.rs lines
522-525), renamed because the field keeps the source name. -/
def Request.redirects_set (r : Request) (n : Nat) : Request :=
  { r with redirects := n }

/-- Embeds `URL_BASE` (request.rs lines 11-13). -/
def URL_BASE : Url := "http://localhost/"

/-- Embeds `Request::to_url` (request.rs lines 553-557):
`URL_BASE.join(&self.path).map_err(|e| Error::BadUrl(..))`, with the
`url` crate's join passed in as `join`. -/
def Request.to_url (join : Url → String → Except String Url) (r : Request) :
    Except Err Url :=
  match join URL_BASE r.path with
  | Except.error e => Except.error (Err.BadUrl e)
  | Except.ok u => Except.ok u

/-- Lock/transport events of one `Request::do_call` execution
(request.rs lines 145-174): the `self.state.lock()` acquisition at
function entry, the blocking `pool.connect` (connect/send/receive),
and the guard drop at function exit. -/
inductive Event where
  | lockAcquire
  | poolConnect
  | lockRelease
  deriving DecidableEq, Repr

/-- A response as produced by `do_call`: either the value returned by
`connect`, or an error converted via `.unwrap_or_else(|e| e.into())`. -/
inductive Resp (α : Type) where
  | conn (a : α)
  | fromError (e : Err)
  deriving DecidableEq, Repr

/-- Embeds `Request::do_call` (request.rs lines 145-174) together with
its lock/IO event trace. The source acquires `self.state.lock()` on its
first line, resolves `to_url`, and — still under the lock, in both the
one-off-pool and shared-state branches — runs `pool.connect` (the
blocking connect/send/receive); the guard drops when `do_call`
returns. Errors from `to_url` or `connect` become the response via
`e.into()`. -/
def Request.do_call (join : Url → String → Except String Url)
    (connect : Url → Except Err α) (r : Request) : Resp α × List Event :=
  match r.to_url join with
  | Except.error e =>
      (Resp.fromError e, [Event.lockAcquire, Event.lockRelease])
  | Except.ok u =>
      (match connect u with
       | Except.ok a => Resp.conn a
       | Except.error e => Resp.fromError e,
       [Event.lockAcquire, Event.poolConnect, Event.lockRelease])

/-- Scans an event trace tracking whether the lock is held; returns
`true` exactly when some `poolConnect` happens while the lock is
held. -/
def connectWhileLocked : Bool → List Event → Bool
  | _, [] => false
  | _, Event.lockAcquire :: rest => connectWhileLocked true rest
  | _, Event.lockRelease :: rest => connectWhileLocked false rest
  | held, Event.poolConnect :: rest => held || connectWhileLocked held rest

/-! Claim theorems. -/

/-- C1: starting from any free buffer, `set_input_filled n` followed by
consume calls `k₁, …, kₘ` with `Σkᵢ = n` and then
`assert_and_clear_input_filled` succeeds with no fatal invariant
violation and returns the buffer to Free (no fill, consumed offset 0). -/
theorem c1_fill_consume_clear_roundtrip (lb : LazyBuffers) (n : Nat) (ks : List Nat)
    (hfree : lb.input_filled = none) (hsum : ks.sum = n) :
    ∃ lb3, (((lb.set_input_filled n).bind fun lb1 => consumeSeq lb1 ks).bind
        fun lb2 => lb2.assert_and_clear_input_filled) = some lb3
      ∧ lb3.input_filled = none ∧ lb3.input_consumed = 0 := by
  subst hsum
  rw [set_input_filled_of_free hfree, Option.some_bind]
  rw [consumeSeq_ok ks { lb with input_filled := some ks.sum, input_consumed := 0 }
    ks.sum rfl (by simp), Option.some_bind]
  refine ⟨{ lb with input_filled := none, input_consumed := 0 }, ?_, rfl, rfl⟩
  have hcu : ({ lb with input_filled := some ks.sum, input_consumed := ks.sum } : LazyBuffers).unconsumed = some 0 := by
    simp [LazyBuffers.unconsumed]
  simp [LazyBuffers.assert_and_clear_input_filled, hcu]

/-- Witness for C1 at a concrete buffer, fill 3 and consumes [1, 2]. -/
theorem c1_witness :
    ∃ lb3, ((((⟨4, 4, [], [], none, 0⟩ : LazyBuffers).set_input_filled 3).bind
        fun lb1 => consumeSeq lb1 [1, 2]).bind
        fun lb2 => lb2.assert_and_clear_input_filled) = some lb3
      ∧ lb3.input_filled = none ∧ lb3.input_consumed = 0 :=
  c1_fill_consume_clear_roundtrip ⟨4, 4, [], [], none, 0⟩ 3 [1, 2] rfl (by decide)

/-- C2: `set_input_filled n` from Free yields Filled(0, n); called while
Filled with consumed < filled it always hits the fatal invariant
violation (`none`, the embedded panic, not a recoverable value). -/
theorem c2_set_input_filled_spec (lb1 lb2 : LazyBuffers) (n m f : Nat)
    (h1 : lb1.input_filled = none)
    (h2 : lb2.input_filled = some f) (h2c : lb2.input_consumed < f) :
    lb1.set_input_filled n
        = some { lb1 with input_filled := some n, input_consumed := 0 }
    ∧ lb2.set_input_filled m = none := by
  refine ⟨set_input_filled_of_free h1, ?_⟩
  have hu := unconsumed_of_filled h2 (Nat.le_of_lt h2c)
  have hclr : lb2.assert_and_clear_input_filled = none := by
    simp only [LazyBuffers.assert_and_clear_input_filled, hu]
    rw [if_pos (by omega)]
  simp [LazyBuffers.set_input_filled, hclr]

/-- Witness for C2: a free buffer accepts fill 7; a buffer at
Filled(1, 3) rejects a new fill fatally. -/
theorem c2_witness :
    (⟨4, 4, [], [], none, 0⟩ : LazyBuffers).set_input_filled 7
        = some ⟨4, 4, [], [], some 7, 0⟩
    ∧ (⟨4, 4, [], [], some 3, 1⟩ : LazyBuffers).set_input_filled 2 = none :=
  c2_set_input_filled_spec ⟨4, 4, [], [], none, 0⟩ ⟨4, 4, [], [], some 3, 1⟩
    7 2 3 rfl rfl (by decide)

/-- C3: `consume_input k` is fatal from Free and fatal when `k` exceeds
`filled - consumed` (never a silent clamp); otherwise it adds exactly
`k` to the consumed offset and leaves the filled amount (and all other
fields) unchanged. -/
theorem c3_consume_input_spec (lbN lb : LazyBuffers) (k0 k1 k2 f : Nat)
    (hN : lbN.input_filled = none)
    (hf : lb.input_filled = some f) (hc : lb.input_consumed ≤ f)
    (hbig : f - lb.input_consumed < k1) (hok : k2 ≤ f - lb.input_consumed) :
    lbN.consume_input k0 = none
    ∧ lb.consume_input k1 = none
    ∧ lb.consume_input k2 = some { lb with input_consumed := lb.input_consumed + k2 } := by
  refine ⟨?_, ?_, consume_input_ok hf hc hok⟩
  · simp [LazyBuffers.consume_input, hN]
  · have hu := unconsumed_of_filled hf hc
    simp only [LazyBuffers.consume_input, hf, Option.isSome_some, if_true, hu]
    rw [if_pos hbig]

/-- Witness for C3 at Filled(1, 3): consuming 0 while Free is fatal,
consuming 5 is fatal, consuming 2 succeeds. -/
theorem c3_witness :
    (⟨4, 4, [], [], none, 0⟩ : LazyBuffers).consume_input 0 = none
    ∧ (⟨4, 4, [], [], some 3, 1⟩ : LazyBuffers).consume_input 5 = none
    ∧ (⟨4, 4, [], [], some 3, 1⟩ : LazyBuffers).consume_input 2
        = some ⟨4, 4, [], [], some 3, 3⟩ :=
  c3_consume_input_spec ⟨4, 4, [], [], none, 0⟩ ⟨4, 4, [], [], some 3, 1⟩
    0 5 2 3 rfl rfl (by decide) (by decide) (by decide)

/-- C4 counterexample: from a fresh buffer of input capacity 1, the
single non-panicking call `set_input_filled 2` reaches the state
Filled(0, 2), whose filled amount 2 exceeds the configured capacity 1 —
`set_input_filled` never checks the fill against `input_size`. -/
theorem c4_counterexample :
    ((LazyBuffers.new 1 1).bind fun lb => lb.set_input_filled 2)
        = some ⟨1, 1, [], [], some 2, 0⟩
    ∧ ¬ (2 ≤ (1 : Nat)) := by decide

/-- C4 (amended): in every LazyBuffers state reachable from a freshly
constructed buffer by non-panicking set_input_filled, consume_input,
assert_and_clear_input_filled and borrow_mut calls, a Filled(consumed,
filled) state satisfies consumed ≤ filled. (The spec's further bound
filled ≤ capacity is not enforced by the code.) -/
theorem c4_reachable_consumed_le_filled (lb : LazyBuffers) (f : Nat)
    (hr : Reachable lb) (hf : lb.input_filled = some f) :
    lb.input_consumed ≤ f := by
  revert hf
  induction hr with
  | init i o lb0 h =>
      intro hf
      rw [new_inv h] at hf
      simp at hf
  | step lb0 lb1 hr0 hs ih =>
      intro hf
      cases hs with
      | fill n h =>
          rw [set_input_filled_inv h]
          exact Nat.zero_le f
      | consume k h =>
          obtain ⟨f0, hf0, hc0, hk0, heq⟩ := consume_input_inv h
          rw [heq] at hf
          have hsame : lb0.input_filled = some f := hf
          rw [hf0] at hsame
          have hff : f0 = f := Option.some_inj.mp hsame
          rw [heq]
          show lb0.input_consumed + k ≤ f
          omega
      | clear h =>
          rw [clear_inv h] at hf
          simp at hf
      | borrow b h =>
          obtain ⟨h1, h2⟩ := borrow_mut_inv h
          rw [h2]
          rw [h1] at hf
          exact ih hf

/-- Witness for C4 (amended) at the reachable state Filled(0, 1) of a
capacity-1 buffer. -/
theorem c4_witness :
    (⟨1, 1, [], [], some 1, 0⟩ : LazyBuffers).input_consumed ≤ 1 :=
  c4_reachable_consumed_le_filled ⟨1, 1, [], [], some 1, 0⟩ 1
    (Reachable.step ⟨1, 1, [], [], none, 0⟩ ⟨1, 1, [], [], some 1, 0⟩
      (Reachable.init 1 1 ⟨1, 1, [], [], none, 0⟩ (by decide))
      (Step.fill ⟨1, 1, [], [], none, 0⟩ ⟨1, 1, [], [], some 1, 0⟩ 1 (by decide)))
    rfl

/-- C5 counterexample: with capacity 2, after `set_input_filled 2` the
buffer is legitimately Filled(0, 2) and `borrow_mut` returns an input
slice of length 2 — the full configured capacity — contradicting the
claim's "never the full capacity". -/
theorem c5_counterexample :
    (((LazyBuffers.new 2 2).bind fun lb => lb.set_input_filled 2).bind
        fun lb => lb.borrow_mut).map (fun p => p.1.input.length) = some 2
    ∧ ((LazyBuffers.new 2 2).bind fun lb => lb.set_input_filled 2).map
        (fun lb => lb.input_size) = some 2 := by decide

/-- C5 (amended): in a Filled(consumed, filled) state satisfying the
data-model bounds consumed ≤ filled ≤ capacity (with input storage
either still unallocated or allocated at capacity), `borrow_mut`
returns exactly the slice `[consumed, filled)` of the input storage,
whose length is `filled - consumed`, the value of `unconsumed()`; it
equals the full capacity only in the boundary case consumed = 0 and
filled = capacity. In the Free state the returned input is the full
buffer of the configured input size. -/
theorem c5_borrow_scoped (lbF lbN : LazyBuffers) (f : Nat)
    (hF : lbF.input_filled = some f) (hcf : lbF.input_consumed ≤ f)
    (hcap : f ≤ lbF.input_size)
    (hFi : lbF.input = [] ∨ lbF.input.length = lbF.input_size)
    (hN : lbN.input_filled = none)
    (hNi : lbN.input = [] ∨ lbN.input.length = lbN.input_size) :
    (∃ b lb2, lbF.borrow_mut = some (b, lb2)
      ∧ b.input = (lb2.input.take f).drop lbF.input_consumed
      ∧ b.input.length = f - lbF.input_consumed
      ∧ lbF.unconsumed = some (f - lbF.input_consumed))
    ∧ (∃ b2 lb3, lbN.borrow_mut = some (b2, lb3)
      ∧ b2.input.length = lbN.input_size) := by
  have hlenF : (if lbF.input.isEmpty = true then List.replicate lbF.input_size 0
      else lbF.input).length = lbF.input_size := by
    split
    · simp
    · next hne =>
        rcases hFi with h | h
        · rw [h] at hne; simp at hne
        · exact h
  have hlenN : (if lbN.input.isEmpty = true then List.replicate lbN.input_size 0
      else lbN.input).length = lbN.input_size := by
    split
    · simp
    · next hne =>
        rcases hNi with h | h
        · rw [h] at hne; simp at hne
        · exact h
  constructor
  · simp only [LazyBuffers.borrow_mut, hF]
    rw [if_pos ⟨hcf, by rw [hlenF]; exact hcap⟩]
    refine ⟨_, _, rfl, rfl, ?_, unconsumed_of_filled hF hcf⟩
    simp only [List.length_drop, List.length_take, hlenF]
    omega
  · simp only [LazyBuffers.borrow_mut, hN]
    exact ⟨_, _, rfl, hlenN⟩

/-- Witness for C5 (amended) at Filled(1, 3) with capacity 4 and a free
capacity-2 buffer. -/
theorem c5_witness :
    (∃ b lb2, (⟨4, 4, [], [], some 3, 1⟩ : LazyBuffers).borrow_mut = some (b, lb2)
      ∧ b.input = (lb2.input.take 3).drop 1
      ∧ b.input.length = 3 - 1
      ∧ (⟨4, 4, [], [], some 3, 1⟩ : LazyBuffers).unconsumed = some (3 - 1))
    ∧ (∃ b2 lb3, (⟨2, 2, [], [], none, 0⟩ : LazyBuffers).borrow_mut = some (b2, lb3)
      ∧ b2.input.length = 2) :=
  c5_borrow_scoped ⟨4, 4, [], [], some 3, 1⟩ ⟨2, 2, [], [], none, 0⟩ 3
    rfl (by decide) (by decide) (Or.inl rfl) rfl (Or.inl rfl)

/-- C6 counterexample: for a concrete request whose target resolves,
the `do_call` trace runs the blocking `pool.connect` between the lock
acquisition and the lock release — the mutual-exclusion lock IS held
across the connect/send/receive phases, refuting the claim at this
input. -/
theorem c6_counterexample :
    connectWhileLocked false
      ((Request.new ⟨0, []⟩ "GET" "/my_page").do_call
        (fun b p => Except.ok (b ++ p)) (fun _ => Except.ok (0 : Nat))).2 = true := by
  rfl

/-- C6 (amended): whenever the target URL resolves, `do_call` acquires
the shared-state lock at entry and holds it across the entire blocking
`pool.connect` (the connect, send and receive phases), releasing it
only when `do_call` returns. -/
theorem c6_lock_held_across_connect {α : Type} (join : Url → String → Except String Url)
    (connect : Url → Except Err α) (r : Request) (u : Url)
    (h : r.to_url join = Except.ok u) :
    connectWhileLocked false (r.do_call join connect).2 = true := by
  simp only [Request.do_call, h]
  rfl

/-- Witness for C6 (amended) at a concrete request and resolver. -/
theorem c6_witness :
    connectWhileLocked false
      ((Request.new ⟨0, []⟩ "GET" "/a").do_call
        (fun b p => Except.ok (b ++ p)) (fun _ => Except.ok (0 : Nat))).2 = true :=
  c6_lock_held_across_connect (fun b p => Except.ok (b ++ p))
    (fun _ => Except.ok (0 : Nat)) (Request.new ⟨0, []⟩ "GET" "/a")
    (URL_BASE ++ "/a") rfl

/-- C7: every request produced by `Request::new` has its redirect
budget initialized to the default 5, and `redirects(n)` replaces that
budget with exactly n, leaving every other request field unchanged. -/
theorem c7_redirects_budget (agent : Agent) (method path : String)
    (r : Request) (n : Nat) :
    (Request.new agent method path).redirects = 5
    ∧ r.redirects_set n = { r with redirects := n } :=
  ⟨rfl, rfl⟩

/-- C8: `to_url` returns `Err(BadUrl)` exactly when joining the path
against the fixed base `http://localhost/` fails, and otherwise the
resolved URL; when `to_url` fails, `do_call` returns that error
converted into the response and the trace contains no `pool.connect`
event. -/
theorem c8_to_url_bad_url {α : Type} (join1 join2 : Url → String → Except String Url)
    (connect : Url → Except Err α) (r1 r2 : Request) (e : String) (u : Url)
    (h1 : join1 URL_BASE r1.path = Except.error e)
    (h2 : join2 URL_BASE r2.path = Except.ok u) :
    r1.to_url join1 = Except.error (Err.BadUrl e)
    ∧ r2.to_url join2 = Except.ok u
    ∧ (r1.do_call join1 connect).1 = Resp.fromError (Err.BadUrl e)
    ∧ Event.poolConnect ∉ (r1.do_call join1 connect).2 := by
  have ht : r1.to_url join1 = Except.error (Err.BadUrl e) := by
    simp [Request.to_url, h1]
  refine ⟨ht, by simp [Request.to_url, h2], ?_, ?_⟩
  · simp [Request.do_call, ht]
  · simp only [Request.do_call, ht]
    decide

/-- Witness for C8 with a resolver that rejects one path and accepts
another. -/
theorem c8_witness :
    (Request.new ⟨0, []⟩ "GET" "/x").to_url (fun _ _ => Except.error "empty host")
        = Except.error (Err.BadUrl "empty host")
    ∧ (Request.new ⟨0, []⟩ "GET" "/x").to_url (fun _ p => Except.ok p)
        = Except.ok "/x"
    ∧ ((Request.new ⟨0, []⟩ "GET" "/x").do_call (fun _ _ => Except.error "empty host")
        (fun _ => Except.ok (0 : Nat))).1 = Resp.fromError (Err.BadUrl "empty host")
    ∧ Event.poolConnect ∉ ((Request.new ⟨0, []⟩ "GET" "/x").do_call
        (fun _ _ => Except.error "empty host") (fun _ => Except.ok (0 : Nat))).2 :=
  c8_to_url_bad_url (fun _ _ => Except.error "empty host") (fun _ p => Except.ok p)
    (fun _ => Except.ok (0 : Nat)) (Request.new ⟨0, []⟩ "GET" "/x")
    (Request.new ⟨0, []⟩ "GET" "/x") "empty host" "/x" rfl rfl

/-- C9: `LazyBuffers::new` is fatal unless both sizes are positive, so
no buffer with a zero configured capacity is ever constructed; with
both sizes positive it always succeeds and yields the Free state with
unallocated (empty) storage. -/
theorem c9_new_requires_positive_sizes (i o i2 o2 : Nat)
    (hzero : i = 0 ∨ o = 0) (hi : 0 < i2) (ho : 0 < o2) :
    LazyBuffers.new i o = none
    ∧ LazyBuffers.new i2 o2 = some ⟨i2, o2, [], [], none, 0⟩ := by
  constructor
  · rcases hzero with h | h <;> simp [LazyBuffers.new, h]
  · simp [LazyBuffers.new, hi, ho]

/-- Witness for C9 at sizes (0, 1) and (3, 4). -/
theorem c9_witness :
    LazyBuffers.new 0 1 = none
    ∧ LazyBuffers.new 3 4 = some ⟨3, 4, [], [], none, 0⟩ :=
  c9_new_requires_positive_sizes 0 1 3 4 (Or.inl rfl) (by decide) (by decide)

/-- C10: `assert_and_clear_input_filled` on a Free buffer never
panics — it succeeds leaving the buffer Free with consumed offset 0 —
and clearing is idempotent: after any successful clear, a second
consecutive clear also succeeds and changes nothing. -/
theorem c10_clear_free_noop_idempotent (lb lb0 lb1 : LazyBuffers)
    (hfree : lb.input_filled = none)
    (hclr : lb0.assert_and_clear_input_filled = some lb1) :
    lb.assert_and_clear_input_filled
        = some { lb with input_filled := none, input_consumed := 0 }
    ∧ lb1.assert_and_clear_input_filled = some lb1 := by
  refine ⟨clear_of_free hfree, ?_⟩
  rw [clear_inv hclr]
  exact clear_of_free rfl

/-- Witness for C10 at a free buffer and a fully-consumed Filled(2, 2)
buffer that was just cleared. -/
theorem c10_witness :
    (⟨4, 4, [], [], none, 0⟩ : LazyBuffers).assert_and_clear_input_filled
        = some ⟨4, 4, [], [], none, 0⟩
    ∧ (⟨4, 4, [], [], none, 0⟩ : LazyBuffers).assert_and_clear_input_filled
        = some ⟨4, 4, [], [], none, 0⟩ :=
  c10_clear_free_noop_idempotent ⟨4, 4, [], [], none, 0⟩ ⟨4, 4, [], [], some 2, 2⟩
    ⟨4, 4, [], [], none, 0⟩ rfl (by decide)

end UreqSpec
